import Mathlib

/-!
Shallow embedding of the FHEVM SDK core (packages/fhevm-sdk/src/core):
the session client lifecycle (client.ts), the context handshake
(init.ts), and the encryption / decryption / reencryption operations
(encryption.ts).  Asynchronous fallible calls are modelled as Except
values; the wrapped fhevmjs library is modelled as a structure of
capability functions, following section 6 of the specification.
-/

namespace FhevmSdk

/-- Errors, one constructor per distinct throw site of the source, plus
a constructor for errors raised by the wrapped third-party calls and one
for the TypeError a null instance dereference would raise.  Wrapping
constructors model the source pattern of rethrowing a new Error whose
message interpolates the caught one. -/
inductive JsError where
  | clientNotCreated : JsError
  | notInitialized : JsError
  | initFailed (cause : JsError) : JsError
  | signerRequiredForEncryption : JsError
  | signerRequiredForDecryption : JsError
  | unsupportedType (tag : String) : JsError
  | encryptFailed (cause : JsError) : JsError
  | reencryptFailed (cause : JsError) : JsError
  | nullInstance : JsError
  | thirdParty (msg : String) : JsError
  deriving DecidableEq

/-- The FhevmType enum of the source.  The six switch-handled members are
explicit constructors; every other tag string (for example the eaddress
member of the enum, which the switch does not handle) is carried by
FhevmType.other. -/
inductive FhevmType where
  | EUINT8 : FhevmType
  | EUINT16 : FhevmType
  | EUINT32 : FhevmType
  | EUINT64 : FhevmType
  | EUINT128 : FhevmType
  | EBOOL : FhevmType
  | other (tag : String) : FhevmType
  deriving DecidableEq

/-- Plaintext values: the TS union number | boolean | string used both for
encryption inputs and decryption outputs. -/
inductive PlainValue where
  | num (n : Nat) : PlainValue
  | bool (b : Bool) : PlainValue
  | str (s : String) : PlainValue
  deriving DecidableEq

/-- One entry of EncryptInputOptions.values. -/
structure TypedValue where
  value : PlainValue
  type : FhevmType
  deriving DecidableEq

/-- The object returned by the builder finalizer input.encrypt(). -/
structure EncryptedData where
  handles : List String
  inputProof : String
  deriving DecidableEq

/-- The EncryptedInput result object built by encryptInput. -/
structure EncryptedInput where
  handles : List String
  inputProof : String
  deriving DecidableEq

/-- The EIP-712 payload handed to signer.signTypedData: domain, types and
message fields of the challenge returned by requestDecryption. -/
structure Eip712Request where
  domain : String
  types : String
  message : String

/-- An ethers signer, reduced to the two capabilities the core calls. -/
structure Signer where
  getAddress : Except JsError String
  signTypedData : Eip712Request → Except JsError String

/-- An ethers provider, reduced to getNetwork, which yields the numeric
chain id of network.chainId. -/
structure Provider where
  getNetwork : Except JsError Nat

/-- FhevmConfig of client.ts. -/
structure FhevmConfig where
  network : String
  gatewayUrl : String
  aclAddress : String
  kmsVerifierAddress : String
  deriving DecidableEq

/-- DEFAULT_CONFIG of client.ts. -/
def DEFAULT_CONFIG : FhevmConfig :=
  ⟨"sepolia", "https://gateway.sepolia.fhevm.io", "0x...", "0x..."⟩

/-- The wrapped fhevmjs instance, as the capability interface the core
calls.  The builder object returned by createEncryptedInput accumulates
the added typed values in call order; in this model the accumulation is
the explicit list the SDK loop builds, createEncryptedInput keeps only
its own fallibility, and finalize receives the binding addresses together
with the accumulated entries and plays the role of input.encrypt(). -/
structure FhevmInstance where
  createEncryptedInput : String → String → Except JsError Unit
  finalize : String → String → List TypedValue → Except JsError EncryptedData
  requestDecryption : String → String → String → Except JsError (Eip712Request × String)
  decrypt : String → String → String → Except JsError PlainValue
  publicDecrypt : String → String → Except JsError PlainValue
  reencrypt : String → String → String → Except JsError String

/-- FhevmClient of the source.  The source field named instance is called
fheInstance here because instance is a Lean keyword. -/
structure FhevmClient where
  provider : Provider
  signer : Option Signer
  config : FhevmConfig
  fheInstance : Option FhevmInstance
  isInitialized : Bool

/-- Resolution pattern client or getFhevmClient(): the explicit argument
when present, otherwise the global slot. -/
def resolveClient (explicitClient g : Option FhevmClient) : Option FhevmClient :=
  match explicitClient with
  | some c => some c
  | none => g

/-- getFhevmInstance of init.ts: throws the not-initialized error unless
the resolved client has isInitialized set, then returns whatever the
instance field holds (possibly null, hence the Option). -/
def getFhevmInstance (explicitClient g : Option FhevmClient) :
    Except JsError (Option FhevmInstance) :=
  match resolveClient explicitClient g with
  | none => .error .notInitialized
  | some c => if c.isInitialized then .ok c.fheInstance else .error .notInitialized

/-- isFhevmReady of init.ts. -/
def isFhevmReady (explicitClient g : Option FhevmClient) : Bool :=
  match resolveClient explicitClient g with
  | none => false
  | some c => c.isInitialized

/-- The argument object of the createInstance factory call in initFhevm. -/
structure InstanceParams where
  chainId : Nat
  networkUrl : String
  aclAddress : String
  kmsVerifierAddress : String

/-- Observable call counts of the two network-dependent steps of
initFhevm: the provider.getNetwork lookup and the createInstance factory
call. -/
structure InitTrace where
  networkCalls : Nat
  factoryCalls : Nat
  deriving DecidableEq

/-- initFhevm of init.ts on an already resolved client.  The factory
parameter models the dynamically imported createInstance (a failing
dynamic import is absorbed into a failing factory).  The result carries
the returned-or-thrown outcome, the post-state of the client, and the
trace of network-dependent calls performed. -/
def initFhevm (factory : InstanceParams → Except JsError FhevmInstance)
    (c : FhevmClient) : Except JsError Unit × FhevmClient × InitTrace :=
  if c.isInitialized then
    (Except.ok (), c, ⟨0, 0⟩)
  else
    match c.provider.getNetwork with
    | .error e => (Except.error (.initFailed e), c, ⟨1, 0⟩)
    | .ok chainId =>
      match factory ⟨chainId, c.config.gatewayUrl, c.config.aclAddress,
          c.config.kmsVerifierAddress⟩ with
      | .error e => (Except.error (.initFailed e), c, ⟨1, 1⟩)
      | .ok inst =>
        (Except.ok (), { c with fheInstance := some inst, isInitialized := true }, ⟨1, 1⟩)

/-- EncryptInputOptions of the source. -/
structure EncryptInputOptions where
  values : List TypedValue
  contractAddress : String
  userAddress : String

/-- One iteration of the add loop of encryptInput: the switch over the
type tag.  Each handled case forwards the value to the width-specific
add call of the builder, which appends it; the default case throws the
unsupported-type error naming the tag. -/
def addToInput (acc : List TypedValue) (tv : TypedValue) :
    Except JsError (List TypedValue) :=
  match tv.type with
  | .EUINT8 => .ok (acc ++ [tv])
  | .EUINT16 => .ok (acc ++ [tv])
  | .EUINT32 => .ok (acc ++ [tv])
  | .EUINT64 => .ok (acc ++ [tv])
  | .EUINT128 => .ok (acc ++ [tv])
  | .EBOOL => .ok (acc ++ [tv])
  | .other tag => .error (.unsupportedType tag)

/-- The for-of loop of encryptInput over options.values. -/
def addAllValues : List TypedValue → List TypedValue →
    Except JsError (List TypedValue)
  | [], acc => .ok acc
  | tv :: rest, acc =>
    match addToInput acc tv with
    | .error e => .error e
    | .ok acc2 => addAllValues rest acc2

/-- A method call on the possibly-null instance value: on null the call
raises a TypeError, modelled as the nullInstance error. -/
def withInstance (inst? : Option FhevmInstance)
    (f : FhevmInstance → Except JsError α) : Except JsError α :=
  match inst? with
  | none => .error .nullInstance
  | some i => f i

/-- The try block of encryptInput: create the builder, add every value in
input order, finalize into handles and proof.  The awaited fallible steps
are sequenced by explicit matches, each error short-circuiting. -/
def encryptTryBody (inst? : Option FhevmInstance) (o : EncryptInputOptions) :
    Except JsError EncryptedInput :=
  match withInstance inst? (fun i =>
      i.createEncryptedInput o.contractAddress o.userAddress) with
  | .error e => .error e
  | .ok _ =>
    match addAllValues o.values [] with
    | .error e => .error e
    | .ok entries =>
      match withInstance inst? (fun i =>
          i.finalize o.contractAddress o.userAddress entries) with
      | .error e => .error e
      | .ok d => .ok ⟨d.handles, d.inputProof⟩

/-- encryptInput of encryption.ts.  It first calls getFhevmInstance with
no argument (global client), then checks client.signer, then runs the
try block; any error of the try block is rethrown wrapped in the
encryption-failure error. -/
def encryptInput (g : Option FhevmClient) (o : EncryptInputOptions) :
    Except JsError EncryptedInput :=
  match getFhevmInstance none g with
  | .error e => .error e
  | .ok inst? =>
    match g.bind (fun c => c.signer) with
    | none => .error .signerRequiredForEncryption
    | some _ =>
      match encryptTryBody inst? o with
      | .ok r => .ok r
      | .error e => .error (.encryptFailed e)

/-- DecryptOutputOptions of the source; useUserDecrypt is an optional
boolean and the source tests it with a strict inequality against false,
so an absent flag selects the permissioned path. -/
structure DecryptOutputOptions where
  encryptedValue : String
  contractAddress : String
  useUserDecrypt : Option Bool

/-- DecryptionResult of the source. -/
structure DecryptionResult where
  plaintext : PlainValue
  success : Bool
  deriving DecidableEq

/-- The try block of decryptOutput: the permissioned path (signer address
lookup, challenge request, EIP-712 signature, signed decrypt) or the
public path, in source call order. -/
def decryptTryBody (inst? : Option FhevmInstance) (s : Signer)
    (o : DecryptOutputOptions) : Except JsError PlainValue :=
  if o.useUserDecrypt ≠ some false then
    match s.getAddress with
    | .error e => .error e
    | .ok userAddress =>
      match withInstance inst? (fun i =>
          i.requestDecryption o.encryptedValue o.contractAddress userAddress) with
      | .error e => .error e
      | .ok chall =>
        match s.signTypedData chall.1 with
        | .error e => .error e
        | .ok sig =>
          withInstance inst? (fun i => i.decrypt o.encryptedValue sig chall.2)
  else
    withInstance inst? (fun i =>
      i.publicDecrypt o.encryptedValue o.contractAddress)

/-- decryptOutput of encryption.ts.  Preconditions (instance gate, signer
presence) throw; failures of the try block are converted by the catch to
the tagged result with empty plaintext and success false. -/
def decryptOutput (g : Option FhevmClient) (o : DecryptOutputOptions) :
    Except JsError DecryptionResult :=
  match getFhevmInstance none g with
  | .error e => .error e
  | .ok inst? =>
    match g.bind (fun c => c.signer) with
    | none => .error .signerRequiredForDecryption
    | some s =>
      match decryptTryBody inst? s o with
      | .ok p => .ok ⟨p, true⟩
      | .error _ => .ok ⟨.str "", false⟩

/-- reencryptValue of encryption.ts: passes the instance gate, then runs
the re-key call in a try whose catch rethrows the reencryption-failure
wrap.  There is no signer check anywhere in its body. -/
def reencryptValue (g : Option FhevmClient)
    (encryptedValue contractAddress targetAddress : String) :
    Except JsError String :=
  match getFhevmInstance none g with
  | .error e => .error e
  | .ok inst? =>
    match withInstance inst? (fun i =>
        i.reencrypt encryptedValue contractAddress targetAddress) with
    | .ok s => .ok s
    | .error e => .error (.reencryptFailed e)

/-- Configuration overrides of FhevmInitOptions.config: the object spread
over DEFAULT_CONFIG replaces exactly the fields present. -/
structure ConfigOverrides where
  network : Option String
  gatewayUrl : Option String
  aclAddress : Option String
  kmsVerifierAddress : Option String

/-- No overrides: an absent config option. -/
def noOverrides : ConfigOverrides := ⟨none, none, none, none⟩

/-- The spread of overrides over the defaults in createFhevmClient. -/
def mergeConfig (d : FhevmConfig) (o : ConfigOverrides) : FhevmConfig :=
  ⟨o.network.getD d.network, o.gatewayUrl.getD d.gatewayUrl,
   o.aclAddress.getD d.aclAddress, o.kmsVerifierAddress.getD d.kmsVerifierAddress⟩

/-- FhevmInitOptions of client.ts. -/
structure FhevmInitOptions where
  provider : Provider
  signer : Option Signer
  config : ConfigOverrides

/-- The process state of client.ts: a heap of client objects addressed by
allocation index, and the module-level globalClient slot holding a
reference (an index) or null.  References model the JS aliasing of the
mutable client objects. -/
structure FhevmWorld where
  clients : List FhevmClient
  globalClient : Option Nat

/-- The world before any createFhevmClient call. -/
def emptyWorld : FhevmWorld := ⟨[], none⟩

/-- createFhevmClient of client.ts: builds a fresh client with merged
config, null instance and isInitialized false, stores its reference in
the global slot, and returns that reference. -/
def createFhevmClient (o : FhevmInitOptions) (w : FhevmWorld) :
    Nat × FhevmWorld :=
  let c : FhevmClient :=
    ⟨o.provider, o.signer, mergeConfig DEFAULT_CONFIG o.config, none, false⟩
  let id := w.clients.length
  (id, ⟨w.clients ++ [c], some id⟩)

/-- getFhevmClient of client.ts: dereference the global slot. -/
def getFhevmClient (w : FhevmWorld) : Option FhevmClient :=
  w.globalClient.bind (fun id => w.clients[id]?)

/-- resetClient of client.ts: clears only the slot. -/
def resetClient (w : FhevmWorld) : FhevmWorld :=
  { w with globalClient := none }

/-- updateClientSigner of client.ts: takes only the new signer; if the
global slot holds a client, overwrite the signer field of that client in
place, otherwise do nothing.  The dangling-reference branch cannot occur
in the source (the slot always holds a live object) and is a no-op. -/
def updateClientSigner (s : Signer) (w : FhevmWorld) : FhevmWorld :=
  match w.globalClient with
  | none => w
  | some id =>
    match w.clients[id]? with
    | none => w
    | some c => { w with clients := w.clients.set id { c with signer := some s } }

/-- Modelled from the spec: section 4.1 describes updateSigner(client,
signer) as replacing the signer field on the client passed by reference,
whichever client that is.  This definition follows those words; the
source exports no such two-argument operation, so it exists only to be
compared with updateClientSigner. -/
def updateSignerPerSpec (id : Nat) (s : Signer) (w : FhevmWorld) : FhevmWorld :=
  match w.clients[id]? with
  | none => w
  | some c => { w with clients := w.clients.set id { c with signer := some s } }

/-! Concrete fixtures: a mock provider, signers, and a mock instance whose
handle space is an identity map on the numeric values (a handle encodes
its value in unary, decoding reads the length back), used to witness the
theorems and to state the round-trip claim. -/

/-- A provider that reports the Sepolia chain id. -/
def demoProvider : Provider := ⟨.ok 11155111⟩

/-- A signer that signs everything. -/
def demoSigner : Signer := ⟨.ok "0xUser", fun _ => .ok "0xsig"⟩

/-- A signer whose signTypedData call is rejected by the wallet. -/
def refusingSigner : Signer :=
  ⟨.ok "0xUser", fun _ => .error (.thirdParty "user rejected request")⟩

/-- Handle encoding of the identity-map mock: a numeric value n becomes
the string of n repetitions of h, a boolean a two-letter marker. -/
def encodeHandle (tv : TypedValue) : String :=
  match tv.value with
  | .num n => String.mk (List.replicate n 'h')
  | .bool b => if b then "bt" else "bf"
  | .str s => s

/-- Handle decoding of the identity-map mock for numeric handles. -/
def decodeHandle (h : String) : PlainValue := .num h.data.length

/-- The identity-map mock context: every capability succeeds, the handle
list returned by finalize is the input entries encoded positionally, and
decryption inverts the numeric encoding. -/
def idFhevmInstance : FhevmInstance where
  createEncryptedInput := fun _ _ => .ok ()
  finalize := fun _ _ es => .ok ⟨es.map encodeHandle, "0xproof"⟩
  requestDecryption := fun _ _ _ => .ok (⟨"domain", "types", "message"⟩, "0xpubkey")
  decrypt := fun ev _ _ => .ok (decodeHandle ev)
  publicDecrypt := fun ev _ => .ok (decodeHandle ev)
  reencrypt := fun _ _ target => .ok target

/-- A mock context whose re-key call fails at the remote service. -/
def failingReencInstance : FhevmInstance :=
  { idFhevmInstance with reencrypt := fun _ _ _ => .error (.thirdParty "kms down") }

/-- A factory that always yields the identity-map mock. -/
def demoFactory : InstanceParams → Except JsError FhevmInstance :=
  fun _ => .ok idFhevmInstance

/-- A factory whose handshake is rejected. -/
def failFactory : InstanceParams → Except JsError FhevmInstance :=
  fun _ => .error (.thirdParty "gateway unreachable")

/-- A freshly created client: provider only, no signer, not ready. -/
def freshClient : FhevmClient := ⟨demoProvider, none, DEFAULT_CONFIG, none, false⟩

/-- An initialized client with a cooperative signer over the identity-map
mock context. -/
def readyClient : FhevmClient :=
  ⟨demoProvider, some demoSigner, DEFAULT_CONFIG, some idFhevmInstance, true⟩

/-- An initialized signerless client over the identity-map mock. -/
def readyNoSignerClient : FhevmClient :=
  ⟨demoProvider, none, DEFAULT_CONFIG, some idFhevmInstance, true⟩

/-- An initialized client whose wallet refuses to sign. -/
def refusingClient : FhevmClient :=
  ⟨demoProvider, some refusingSigner, DEFAULT_CONFIG, some idFhevmInstance, true⟩

/-- An initialized client whose context rejects the re-key call. -/
def failingReencClient : FhevmClient :=
  ⟨demoProvider, some demoSigner, DEFAULT_CONFIG, some failingReencInstance, true⟩

/-- A sample two-value batch with recognized tags. -/
def demoEncOpts : EncryptInputOptions :=
  ⟨[⟨.num 2, .EUINT32⟩, ⟨.num 3, .EUINT8⟩], "0xContract", "0xUser"⟩

/-- A batch whose second entry carries the unhandled eaddress tag. -/
def badTagOpts : EncryptInputOptions :=
  ⟨[⟨.num 1, .EUINT8⟩, ⟨.str "0xabc", .other "eaddress"⟩], "0xContract", "0xUser"⟩

/-- A sample permissioned decryption request. -/
def demoDecOpts : DecryptOutputOptions := ⟨"hh", "0xContract", none⟩

/-- The type tags the encryptInput switch handles. -/
def recognizedType (t : FhevmType) : Bool :=
  match t with
  | .other _ => false
  | _ => true

/-- The world after the scenario step: createFhevmClient with a provider
and no signer, starting from a fresh process. -/
def freshNoSignerWorld : FhevmWorld :=
  (createFhevmClient ⟨demoProvider, none, noOverrides⟩ emptyWorld).2

/-- A world holding two signerless clients, the global slot referencing
the first. -/
def twoClientWorld : FhevmWorld := ⟨[freshClient, freshClient], some 0⟩

/-! Helper lemmas about the add loop and the operation shapes. -/

theorem addToInput_ok (acc : List TypedValue) (tv : TypedValue)
    (h : recognizedType tv.type = true) :
    addToInput acc tv = .ok (acc ++ [tv]) := by
  unfold addToInput
  cases htv : tv.type <;> simp [recognizedType, htv] at h ⊢

theorem addAllValues_ok (vs : List TypedValue) (acc : List TypedValue)
    (h : ∀ tv ∈ vs, recognizedType tv.type = true) :
    addAllValues vs acc = .ok (acc ++ vs) := by
  induction vs generalizing acc with
  | nil => simp [addAllValues]
  | cons tv rest ih =>
    rw [addAllValues, addToInput_ok acc tv (h tv (by simp))]
    show addAllValues rest (acc ++ [tv]) = Except.ok (acc ++ tv :: rest)
    rw [ih (acc ++ [tv]) (fun x hx => h x (by simp [hx]))]
    simp

theorem addAllValues_firstBad (pre post : List TypedValue) (v : PlainValue)
    (t : String) (acc : List TypedValue)
    (hpre : ∀ tv ∈ pre, recognizedType tv.type = true) :
    addAllValues (pre ++ ⟨v, .other t⟩ :: post) acc =
      .error (.unsupportedType t) := by
  induction pre generalizing acc with
  | nil => simp [addAllValues, addToInput]
  | cons tv rest ih =>
    rw [List.cons_append, addAllValues, addToInput_ok acc tv (hpre tv (by simp))]
    show addAllValues (rest ++ ⟨v, .other t⟩ :: post) (acc ++ [tv]) =
      .error (.unsupportedType t)
    exact ih _ (fun x hx => hpre x (by simp [hx]))

theorem encryptInput_eq (c : FhevmClient) (s : Signer) (o : EncryptInputOptions)
    (hinit : c.isInitialized = true) (hsig : c.signer = some s) :
    encryptInput (some c) o =
      match encryptTryBody c.fheInstance o with
      | .ok r => .ok r
      | .error e => .error (.encryptFailed e) := by
  unfold encryptInput getFhevmInstance resolveClient
  simp [hinit, hsig]

theorem decryptOutput_eq (c : FhevmClient) (s : Signer) (o : DecryptOutputOptions)
    (hinit : c.isInitialized = true) (hsig : c.signer = some s) :
    decryptOutput (some c) o =
      match decryptTryBody c.fheInstance s o with
      | .ok p => .ok ⟨p, true⟩
      | .error _ => .ok ⟨.str "", false⟩ := by
  unfold decryptOutput getFhevmInstance resolveClient
  simp [hinit, hsig]

/-- C1: on a client whose isInitialized flag is false, encryptInput and
decryptOutput both fail with the not-initialized error.  The theorem
holds for every provider, signer and instance field of such a client and
for every options value, so the outcome is independent of the opaque
context and of every network-dependent capability: neither operation can
have attempted a context call or a network call, and neither proceeds
with a null context. -/
theorem encryptDecrypt_requireReady (c : FhevmClient) (eo : EncryptInputOptions)
    (o : DecryptOutputOptions) (h : c.isInitialized = false) :
    encryptInput (some c) eo = .error .notInitialized ∧
    decryptOutput (some c) o = .error .notInitialized := by
  unfold encryptInput decryptOutput getFhevmInstance resolveClient
  simp [h]

/-- Witness for C1 at the freshly created client. -/
theorem encryptDecrypt_requireReady_witness :
    encryptInput (some freshClient) demoEncOpts = .error .notInitialized ∧
    decryptOutput (some freshClient) demoDecOpts = .error .notInitialized :=
  encryptDecrypt_requireReady freshClient demoEncOpts demoDecOpts rfl

/-- C2: on a client whose isInitialized flag is already true, initFhevm
returns successfully at once, leaves the client untouched, and performs
zero provider chain-identity lookups and zero context-factory calls. -/
theorem initFhevm_idempotent (factory : InstanceParams → Except JsError FhevmInstance)
    (c : FhevmClient) (h : c.isInitialized = true) :
    initFhevm factory c = (Except.ok (), c, ⟨0, 0⟩) := by
  unfold initFhevm
  simp [h]

/-- Witness for C2 at the ready client. -/
theorem initFhevm_idempotent_witness :
    initFhevm demoFactory readyClient = (Except.ok (), readyClient, ⟨0, 0⟩) :=
  initFhevm_idempotent demoFactory readyClient rfl

/-- C3: on an uninitialized client with a null context, if the chain
identity lookup fails or the context factory call fails, initFhevm
fails with the wrap of the underlying cause and the client state is
unchanged: the flag stays false and the context stays null. -/
theorem initFhevm_atomicOnFailure
    (factory : InstanceParams → Except JsError FhevmInstance)
    (c : FhevmClient) (e : JsError)
    (hflag : c.isInitialized = false) (hctx : c.fheInstance = none)
    (hfail : c.provider.getNetwork = .error e ∨
      ∃ chainId, c.provider.getNetwork = .ok chainId ∧
        factory ⟨chainId, c.config.gatewayUrl, c.config.aclAddress,
          c.config.kmsVerifierAddress⟩ = .error e) :
    (initFhevm factory c).1 = .error (.initFailed e) ∧
    (initFhevm factory c).2.1 = c ∧
    (initFhevm factory c).2.1.isInitialized = false ∧
    (initFhevm factory c).2.1.fheInstance = none := by
  rcases hfail with hnet | ⟨chainId, hnet, hfac⟩
  · unfold initFhevm
    simp [hflag, hnet, hctx]
  · unfold initFhevm
    simp [hflag, hnet, hfac, hctx]

/-- Witness for C3: the fresh client against a rejected handshake. -/
theorem initFhevm_atomicOnFailure_witness :
    (initFhevm failFactory freshClient).1 =
      .error (.initFailed (.thirdParty "gateway unreachable")) ∧
    (initFhevm failFactory freshClient).2.1 = freshClient ∧
    (initFhevm failFactory freshClient).2.1.isInitialized = false ∧
    (initFhevm failFactory freshClient).2.1.fheInstance = none :=
  initFhevm_atomicOnFailure failFactory freshClient
    (.thirdParty "gateway unreachable") rfl rfl
    (Or.inr ⟨11155111, rfl, rfl⟩)

/-- C4: once past its preconditions (resolvable client, signer present,
initialized context), decryptOutput always returns a result rather than
throwing: any failure of the permissioned or the public path is converted
to the tagged result with empty plaintext and success false, while the
precondition failures themselves (unresolvable or uninitialized client,
missing signer) propagate as thrown errors. -/
theorem decryptOutput_boundary (c : FhevmClient) (s : Signer)
    (o : DecryptOutputOptions)
    (hinit : c.isInitialized = true) (hsig : c.signer = some s) :
    (∃ r, decryptOutput (some c) o = .ok r) ∧
    (∀ e, decryptTryBody c.fheInstance s o = .error e →
        decryptOutput (some c) o = .ok ⟨.str "", false⟩) ∧
    (∀ p, decryptTryBody c.fheInstance s o = .ok p →
        decryptOutput (some c) o = .ok ⟨p, true⟩) ∧
    (∀ (c2 : FhevmClient) (o2 : DecryptOutputOptions), c2.isInitialized = false →
        decryptOutput (some c2) o2 = .error .notInitialized) ∧
    (∀ (c3 : FhevmClient) (o3 : DecryptOutputOptions), c3.isInitialized = true →
        c3.signer = none →
        decryptOutput (some c3) o3 = .error .signerRequiredForDecryption) ∧
    (∀ o4 : DecryptOutputOptions, decryptOutput none o4 = .error .notInitialized) := by
  refine ⟨?_, ?_, ?_, ?_, ?_, ?_⟩
  · rw [decryptOutput_eq c s o hinit hsig]
    cases htb : decryptTryBody c.fheInstance s o with
    | ok p => exact ⟨⟨p, true⟩, rfl⟩
    | error e => exact ⟨⟨.str "", false⟩, rfl⟩
  · intro e he
    rw [decryptOutput_eq c s o hinit hsig, he]
  · intro p hp
    rw [decryptOutput_eq c s o hinit hsig, hp]
  · intro c2 o2 h2
    unfold decryptOutput getFhevmInstance resolveClient
    simp [h2]
  · intro c3 o3 h3 hs3
    unfold decryptOutput getFhevmInstance resolveClient
    simp [h3, hs3]
  · intro o4
    rfl

/-- Witness for C4: a wallet that refuses to sign yields the tagged
failure result without throwing, and a missing signer still throws. -/
theorem decryptOutput_boundary_witness :
    decryptOutput (some refusingClient) demoDecOpts = .ok ⟨.str "", false⟩ ∧
    decryptOutput (some readyNoSignerClient) demoDecOpts =
      .error .signerRequiredForDecryption := by
  have h := decryptOutput_boundary refusingClient refusingSigner demoDecOpts rfl rfl
  exact ⟨h.2.1 (.thirdParty "user rejected request") rfl,
    h.2.2.2.2.1 readyNoSignerClient demoDecOpts rfl rfl⟩

/-- Reduction of encryptInput on an initialized client with signer and a
non-null instance, as the nested case split of the try block with every
error wrapped by the catch. -/
theorem encryptInput_cases (c : FhevmClient) (s : Signer) (inst : FhevmInstance)
    (o : EncryptInputOptions)
    (hinit : c.isInitialized = true) (hsig : c.signer = some s)
    (hinst : c.fheInstance = some inst) :
    encryptInput (some c) o =
      match inst.createEncryptedInput o.contractAddress o.userAddress with
      | .error e => .error (.encryptFailed e)
      | .ok _ =>
        match addAllValues o.values [] with
        | .error e => .error (.encryptFailed e)
        | .ok entries =>
          match inst.finalize o.contractAddress o.userAddress entries with
          | .error e => .error (.encryptFailed e)
          | .ok d => .ok ⟨d.handles, d.inputProof⟩ := by
  rw [encryptInput_eq c s o hinit hsig, hinst]
  cases hc : inst.createEncryptedInput o.contractAddress o.userAddress with
  | error e => simp [encryptTryBody, withInstance, hc]
  | ok u =>
    cases ha : addAllValues o.values [] with
    | error e => simp [encryptTryBody, withInstance, hc, ha]
    | ok entries =>
      cases hf : inst.finalize o.contractAddress o.userAddress entries with
      | error e => simp [encryptTryBody, withInstance, hc, ha, hf]
      | ok d => simp [encryptTryBody, withInstance, hc, ha, hf]

/-- C5: on an initialized client with a signer and a context that yields
one handle per packed entry, a successful encryptInput over a batch of
N recognized typed values returns the handle list the context produced
for exactly the input values in input order (hence of length N) together
with the single joint proof, and any failing run fails with the
encryption-failure error wrapping the underlying cause, returning no
partial result. -/
theorem encryptInput_batchContract (c : FhevmClient) (s : Signer)
    (inst : FhevmInstance) (o : EncryptInputOptions)
    (hinit : c.isInitialized = true) (hsig : c.signer = some s)
    (hinst : c.fheInstance = some inst) (hN : 1 ≤ o.values.length)
    (hrec : ∀ tv ∈ o.values, recognizedType tv.type = true)
    (hlen : ∀ es d, inst.finalize o.contractAddress o.userAddress es = .ok d →
        d.handles.length = es.length) :
    (∀ r, encryptInput (some c) o = .ok r →
        inst.finalize o.contractAddress o.userAddress o.values =
          .ok ⟨r.handles, r.inputProof⟩ ∧
        r.handles.length = o.values.length) ∧
    (∀ e, encryptInput (some c) o = .error e →
        ∃ cause, e = .encryptFailed cause) := by
  have key := encryptInput_cases c s inst o hinit hsig hinst
  rw [addAllValues_ok o.values [] hrec, List.nil_append] at key
  constructor
  · intro r hr
    cases hc : inst.createEncryptedInput o.contractAddress o.userAddress with
    | error e1 =>
      have hv : encryptInput (some c) o = .error (.encryptFailed e1) := by
        rw [key]
        simp [hc]
      rw [hv] at hr
      exact absurd hr (by simp)
    | ok u =>
      cases hf : inst.finalize o.contractAddress o.userAddress o.values with
      | error e2 =>
        have hv : encryptInput (some c) o = .error (.encryptFailed e2) := by
          rw [key]
          simp [hc, hf]
        rw [hv] at hr
        exact absurd hr (by simp)
      | ok d =>
        have hv : encryptInput (some c) o = .ok ⟨d.handles, d.inputProof⟩ := by
          rw [key]
          simp [hc, hf]
        rw [hv] at hr
        obtain rfl : (⟨d.handles, d.inputProof⟩ : EncryptedInput) = r := by
          injection hr
        exact ⟨rfl, hlen o.values d hf⟩
  · intro e he
    cases hc : inst.createEncryptedInput o.contractAddress o.userAddress with
    | error e1 =>
      have hv : encryptInput (some c) o = .error (.encryptFailed e1) := by
        rw [key]
        simp [hc]
      rw [hv] at he
      obtain rfl : JsError.encryptFailed e1 = e := by injection he
      exact ⟨e1, rfl⟩
    | ok u =>
      cases hf : inst.finalize o.contractAddress o.userAddress o.values with
      | error e2 =>
        have hv : encryptInput (some c) o = .error (.encryptFailed e2) := by
          rw [key]
          simp [hc, hf]
        rw [hv] at he
        obtain rfl : JsError.encryptFailed e2 = e := by injection he
        exact ⟨e2, rfl⟩
      | ok d =>
        have hv : encryptInput (some c) o = .ok ⟨d.handles, d.inputProof⟩ := by
          rw [key]
          simp [hc, hf]
        rw [hv] at he
        exact absurd he (by simp)

/-- Witness for C5: the two-value batch against the identity-map mock. -/
theorem encryptInput_batchContract_witness :
    idFhevmInstance.finalize "0xContract" "0xUser" demoEncOpts.values =
      .ok ⟨["hh", "hhh"], "0xproof"⟩ ∧
    (["hh", "hhh"] : List String).length = demoEncOpts.values.length := by
  have h := encryptInput_batchContract readyClient demoSigner idFhevmInstance
    demoEncOpts rfl rfl rfl (by decide) (by decide)
    (fun es d hd => by
      injection hd with hd2
      rw [← hd2]
      simp [List.length_map])
  exact h.1 ⟨["hh", "hhh"], "0xproof"⟩ rfl

/-- C6 counterexample: in the exact scenario the claim cites (a client
freshly created with a provider and no signer), the first encrypt call
fails with the not-initialized error, not the signer-required error,
because encryptInput calls getFhevmInstance before its signer check. -/
theorem encryptInput_freshNoSigner_cx :
    encryptInput (getFhevmClient freshNoSignerWorld) demoEncOpts =
      .error .notInitialized ∧
    encryptInput (getFhevmClient freshNoSignerWorld) demoEncOpts ≠
      .error .signerRequiredForEncryption := by
  constructor
  · rfl
  · intro h
    rw [show encryptInput (getFhevmClient freshNoSignerWorld) demoEncOpts =
        .error .notInitialized from rfl] at h
    injection h with h2
    cases h2

/-- C6 (amended): encryptInput on a signerless client fails with the
signer-required error before any call on the opaque context only when the
client is already initialized; on an uninitialized client (the fresh
creation scenario) the not-initialized error fires first.  Both clauses
hold for every instance and provider value of the client, so neither
outcome involves a context call. -/
theorem encryptInput_signerGate (o : EncryptInputOptions) :
    (∀ c : FhevmClient, c.isInitialized = true → c.signer = none →
        encryptInput (some c) o = .error .signerRequiredForEncryption) ∧
    (∀ c : FhevmClient, c.isInitialized = false →
        encryptInput (some c) o = .error .notInitialized) := by
  constructor
  · intro c hinit hsig
    unfold encryptInput getFhevmInstance resolveClient
    simp [hinit, hsig]
  · intro c hinit
    unfold encryptInput getFhevmInstance resolveClient
    simp [hinit]

/-- Witness for the amended C6 at the two concrete clients. -/
theorem encryptInput_signerGate_witness :
    encryptInput (some readyNoSignerClient) demoEncOpts =
      .error .signerRequiredForEncryption ∧
    encryptInput (some freshClient) demoEncOpts = .error .notInitialized :=
  ⟨(encryptInput_signerGate demoEncOpts).1 readyNoSignerClient rfl rfl,
   (encryptInput_signerGate demoEncOpts).2 freshClient rfl⟩

/-- C7 counterexample: a batch containing the unhandled eaddress tag does
not fail with the bare unsupported-type error: the switch throw happens
inside the try block, so the caller receives the encryption-failure wrap
around it. -/
theorem encryptInput_badTag_cx :
    encryptInput (some readyClient) badTagOpts =
      .error (.encryptFailed (.unsupportedType "eaddress")) ∧
    encryptInput (some readyClient) badTagOpts ≠
      .error (.unsupportedType "eaddress") := by
  constructor
  · rfl
  · intro h
    rw [show encryptInput (some readyClient) badTagOpts =
        .error (.encryptFailed (.unsupportedType "eaddress")) from rfl] at h
    injection h with h2
    cases h2

/-- C7 (amended): on an initialized client with a signer, a non-null
instance and a successful builder creation, a batch whose first
unrecognized entry carries tag t makes encryptInput fail with the
encryption-failure error wrapping the unsupported-type error that names
t. -/
theorem encryptInput_unsupportedWrapped (c : FhevmClient) (s : Signer)
    (inst : FhevmInstance) (o : EncryptInputOptions)
    (pre post : List TypedValue) (v : PlainValue) (t : String)
    (hinit : c.isInitialized = true) (hsig : c.signer = some s)
    (hinst : c.fheInstance = some inst)
    (hcreate : inst.createEncryptedInput o.contractAddress o.userAddress = .ok ())
    (hvals : o.values = pre ++ ⟨v, .other t⟩ :: post)
    (hpre : ∀ tv ∈ pre, recognizedType tv.type = true) :
    encryptInput (some c) o = .error (.encryptFailed (.unsupportedType t)) := by
  have key := encryptInput_cases c s inst o hinit hsig hinst
  rw [hvals, addAllValues_firstBad pre post v t [] hpre] at key
  rw [key]
  simp [hcreate]

/-- Witness for the amended C7 at the eaddress batch. -/
theorem encryptInput_unsupportedWrapped_witness :
    encryptInput (some readyClient) badTagOpts =
      .error (.encryptFailed (.unsupportedType "eaddress")) :=
  encryptInput_unsupportedWrapped readyClient demoSigner idFhevmInstance
    badTagOpts [⟨.num 1, .EUINT8⟩] [] (.str "0xabc") "eaddress"
    rfl rfl rfl rfl rfl (by decide)

/-- C8: round trip on the initialized client with a signer over the
identity-map mock context: encrypting a euint32 value v yields exactly
one handle and the joint proof, and decrypting that handle through
decryptOutput returns the result with plaintext v and success true. -/
theorem encryptDecrypt_roundTrip (v : Nat) (ca ua : String) :
    ∃ h1 : String,
      encryptInput (some readyClient) ⟨[⟨.num v, .EUINT32⟩], ca, ua⟩ =
        .ok ⟨[h1], "0xproof"⟩ ∧
      decryptOutput (some readyClient) ⟨h1, ca, none⟩ = .ok ⟨.num v, true⟩ := by
  refine ⟨String.mk (List.replicate v 'h'), rfl, ?_⟩
  rw [show decryptOutput (some readyClient)
      ⟨String.mk (List.replicate v 'h'), ca, none⟩ =
      .ok ⟨.num (List.replicate v 'h').length, true⟩ from rfl]
  simp

/-- C9 counterexample: with two live clients and the global slot on the
first, the update operation of the source cannot replace the signer of
the second (referenced) client: the source operation takes no client
argument and mutates the global one, leaving client 1 signerless, while
the operation the claim describes would give client 1 a signer. -/
theorem updateClientSigner_target_cx :
    ((updateClientSigner demoSigner twoClientWorld).clients[0]?.map
      (fun c => c.signer.isSome)) = some true ∧
    ((updateClientSigner demoSigner twoClientWorld).clients[1]?.map
      (fun c => c.signer.isSome)) = some false ∧
    ((updateSignerPerSpec 1 demoSigner twoClientWorld).clients[1]?.map
      (fun c => c.signer.isSome)) = some true :=
  ⟨rfl, rfl, rfl⟩

/-- C9 (amended): updateClientSigner takes only the signer and targets
the client in the global slot: it replaces exactly that client signer
field, leaves its other fields and every other client untouched, leaves
the slot pointer unchanged, and is a no-op when the slot is empty. -/
theorem updateClientSigner_frame (s : Signer) (w : FhevmWorld) :
    (updateClientSigner s w).globalClient = w.globalClient ∧
    (w.globalClient = none → updateClientSigner s w = w) ∧
    (∀ gid, w.globalClient = some gid →
      (∀ j, j ≠ gid → (updateClientSigner s w).clients[j]? = w.clients[j]?) ∧
      (∀ c, w.clients[gid]? = some c →
        (updateClientSigner s w).clients[gid]? =
          some { c with signer := some s })) := by
  cases hg : w.globalClient with
  | none =>
    have hupd : updateClientSigner s w = w := by
      unfold updateClientSigner
      rw [hg]
    refine ⟨by rw [hupd]; exact hg, fun _ => hupd, ?_⟩
    intro gid hgid
    cases hgid
  | some id =>
    cases hcl : w.clients[id]? with
    | none =>
      have hupd : updateClientSigner s w = w := by
        unfold updateClientSigner
        simp [hg, hcl]
      refine ⟨by rw [hupd]; exact hg, fun _ => hupd, ?_⟩
      intro gid hgid
      injection hgid with hid
      subst hid
      refine ⟨fun j hj => by rw [hupd], ?_⟩
      intro c hc
      rw [hcl] at hc
      cases hc
    | some c0 =>
      have hupd : updateClientSigner s w =
          { w with clients := w.clients.set id { c0 with signer := some s } } := by
        unfold updateClientSigner
        simp [hg, hcl]
      refine ⟨by rw [hupd]; exact hg, ?_, ?_⟩
      · intro hnone
        cases hnone
      · intro gid hgid
        injection hgid with hid
        subst hid
        constructor
        · intro j hj
          rw [hupd]
          show (w.clients.set id { c0 with signer := some s })[j]? = w.clients[j]?
          exact List.getElem?_set_ne (fun he => hj he.symm)
        · intro c hc
          rw [hcl] at hc
          injection hc with hcc
          subst hcc
          rw [hupd]
          show (w.clients.set id { c0 with signer := some s })[id]? =
            some { c0 with signer := some s }
          exact List.getElem?_set_self (List.getElem?_eq_some.mp hcl).1

/-- Witness for the amended C9 in the two-client world. -/
theorem updateClientSigner_frame_witness :
    (updateClientSigner demoSigner twoClientWorld).clients[1]? =
      twoClientWorld.clients[1]? ∧
    (updateClientSigner demoSigner twoClientWorld).clients[0]? =
      some { freshClient with signer := some demoSigner } := by
  have h := updateClientSigner_frame demoSigner twoClientWorld
  exact ⟨(h.2.2 0 rfl).1 1 (by decide), (h.2.2 0 rfl).2 freshClient rfl⟩

/-- C10: reencryptValue never requires a signer: every error it can
return is either the not-initialized gate error or the reencryption
failure wrap of an underlying cause (never a signer-required error); on
an uninitialized client it fails at the gate, and on an initialized
client (whatever its signer field, including none) it mirrors the re-key
call, wrapping its failure and passing through its success. -/
theorem reencryptValue_noSigner (ev ca ta : String) :
    (∀ (g : Option FhevmClient) (e : JsError),
        reencryptValue g ev ca ta = .error e →
        e = .notInitialized ∨ ∃ cause, e = .reencryptFailed cause) ∧
    (∀ c : FhevmClient, c.isInitialized = false →
        reencryptValue (some c) ev ca ta = .error .notInitialized) ∧
    (∀ (c : FhevmClient) (inst : FhevmInstance) (cause : JsError),
        c.isInitialized = true → c.fheInstance = some inst →
        inst.reencrypt ev ca ta = .error cause →
        reencryptValue (some c) ev ca ta = .error (.reencryptFailed cause)) ∧
    (∀ (c : FhevmClient) (inst : FhevmInstance) (r : String),
        c.isInitialized = true → c.fheInstance = some inst →
        inst.reencrypt ev ca ta = .ok r →
        reencryptValue (some c) ev ca ta = .ok r) := by
  refine ⟨?_, ?_, ?_, ?_⟩
  · intro g e h
    cases g with
    | none =>
      rw [show reencryptValue none ev ca ta = .error .notInitialized from rfl] at h
      injection h with h2
      exact Or.inl h2.symm
    | some c =>
      cases hi : c.isInitialized with
      | false =>
        have hv : reencryptValue (some c) ev ca ta = .error .notInitialized := by
          unfold reencryptValue getFhevmInstance resolveClient
          simp [hi]
        rw [hv] at h
        injection h with h2
        exact Or.inl h2.symm
      | true =>
        cases hfi : c.fheInstance with
        | none =>
          have hv : reencryptValue (some c) ev ca ta =
              .error (.reencryptFailed .nullInstance) := by
            unfold reencryptValue getFhevmInstance resolveClient withInstance
            simp [hi, hfi]
          rw [hv] at h
          injection h with h2
          exact Or.inr ⟨.nullInstance, h2.symm⟩
        | some inst =>
          cases hre : inst.reencrypt ev ca ta with
          | ok r =>
            have hv : reencryptValue (some c) ev ca ta = .ok r := by
              unfold reencryptValue getFhevmInstance resolveClient withInstance
              simp [hi, hfi, hre]
            rw [hv] at h
            cases h
          | error cause =>
            have hv : reencryptValue (some c) ev ca ta =
                .error (.reencryptFailed cause) := by
              unfold reencryptValue getFhevmInstance resolveClient withInstance
              simp [hi, hfi, hre]
            rw [hv] at h
            injection h with h2
            exact Or.inr ⟨cause, h2.symm⟩
  · intro c hi
    unfold reencryptValue getFhevmInstance resolveClient
    simp [hi]
  · intro c inst cause hi hfi hre
    unfold reencryptValue getFhevmInstance resolveClient withInstance
    simp [hi, hfi, hre]
  · intro c inst r hi hfi hre
    unfold reencryptValue getFhevmInstance resolveClient withInstance
    simp [hi, hfi, hre]

/-- Witness for C10: gate failure, wrapped re-key failure, and a signerless
success. -/
theorem reencryptValue_noSigner_witness :
    reencryptValue (some freshClient) "0xhandle" "0xContract" "0xTarget" =
      .error .notInitialized ∧
    reencryptValue (some failingReencClient) "0xhandle" "0xContract" "0xTarget" =
      .error (.reencryptFailed (.thirdParty "kms down")) ∧
    reencryptValue (some readyNoSignerClient) "0xhandle" "0xContract" "0xTarget" =
      .ok "0xTarget" := by
  have h := reencryptValue_noSigner "0xhandle" "0xContract" "0xTarget"
  exact ⟨h.2.1 freshClient rfl,
    h.2.2.1 failingReencClient failingReencInstance (.thirdParty "kms down") rfl rfl rfl,
    h.2.2.2 readyNoSignerClient idFhevmInstance "0xTarget" rfl rfl rfl⟩

end FhevmSdk
